import Mathlib

/-! Frame codec and scale session of `driver.go`: a shallow embedding of `src/driver.go`.

* A Go `byte` is a `Nat` below 256, a `uint16` a `Nat` below 65536, a `uint32` a `Nat` below
  2^32; every operation that can leave the range is followed by an explicit `%`.
* An `int32` is an `Int`; the conversion `int32(u)` of a `uint32` is `toInt32`.
* A `[]byte` is a `List Nat`.
* A Go run-time panic is the `error` side of `Except Panic`; the Go `error` value a function
  returns is an `Option GoError` (`none` is `nil`).
* The `net.Conn` held by the driver is a record of what the peer does (`Conn`), with a log of
  the calls made on it.
-/

namespace ScaleDriver

/-! ## Go run-time values -/

/-- Run-time panics the code can reach. -/
inductive Panic where
  | nilDereference
  | indexOutOfRange
  | sliceBoundsOutOfRange
deriving DecidableEq, Repr

/-- Go `error` values: those produced by the `net` package and those built by `fmt.Errorf`
(without `%w`, so a plain string error). -/
inductive GoError where
  | net (msg : String)
  | errorString (msg : String)
deriving DecidableEq, Repr

/-- The `Error()` method. -/
def GoError.Error : GoError → String
  | .net msg => msg
  | .errorString msg => msg

/-- Index expression `s[i]`: panics when `i` is not below `len(s)`. -/
def index (s : List Nat) (i : Nat) : Except Panic Nat :=
  match s.get? i with
  | some b => .ok b
  | none => .error .indexOutOfRange

/-- Slice expression `s[lo:hi]`. Go checks `hi` against the capacity, which is at least the
length; the check here is against the length, so it panics at least as often as Go does. -/
def slice (s : List Nat) (lo hi : Nat) : Except Panic (List Nat) :=
  if lo ≤ hi ∧ hi ≤ s.length then .ok ((s.take hi).drop lo) else .error .sliceBoundsOutOfRange

/-- Conversion `int32(u)` of a `uint32`: reinterpretation in two's complement. -/
def toInt32 (u : Nat) : Int :=
  if u % 4294967296 < 2147483648 then ((u % 4294967296 : Nat) : Int)
  else ((u % 4294967296 : Nat) : Int) - 4294967296

/-- Library function `binary.LittleEndian.Uint32`:
`uint32(b[0]) | uint32(b[1])<<8 | uint32(b[2])<<16 | uint32(b[3])<<24`, after the bounds
check `_ = b[3]`. -/
def LittleEndianUint32 (b : List Nat) : Except Panic Nat :=
  match b with
  | b0 :: b1 :: b2 :: b3 :: _ =>
    .ok (b0 ||| ((b1 <<< 8) % 4294967296) ||| ((b2 <<< 16) % 4294967296)
      ||| ((b3 <<< 24) % 4294967296))
  | _ => .error .indexOutOfRange

/-! ## The connection -/

/-- Calls made on a `net.Conn`. The read deadline is recorded as its distance in seconds from
`time.Now()`; the read as the length of the buffer handed over. -/
inductive ConnEvent where
  | write (p : List Nat)
  | setReadDeadline (seconds : Nat)
  | read (bufLen : Nat)
  | close
deriving DecidableEq, Repr

/-- A `net.Conn`: what the transport answers to `Write`, `Read` and `Close`, whether it has been
closed, and the calls made on it so far (oldest first). -/
structure Conn where
  writeErr : Option GoError
  readData : List Nat
  readErr : Option GoError
  closeErr : Option GoError
  closed : Bool
  log : List ConnEvent
deriving DecidableEq, Repr

/-- Call `conn.Write(p)`: the error returned; the byte count is discarded by the caller. -/
def Conn.Write (c : Conn) (p : List Nat) : Conn × Option GoError :=
  ({ c with log := c.log ++ [.write p] }, c.writeErr)

/-- Call `conn.SetReadDeadline(time.Now().Add(seconds * time.Second))`; its result is
discarded by the caller. -/
def Conn.SetReadDeadline (c : Conn) (seconds : Nat) : Conn :=
  { c with log := c.log ++ [.setReadDeadline seconds] }

/-- Call `conn.Read(buf)`: at most `len(buf)` bytes are copied to the front of the buffer;
returns the buffer, the count `n` and the error. -/
def Conn.Read (c : Conn) (buf : List Nat) : Conn × List Nat × Nat × Option GoError :=
  let got := c.readData.take buf.length
  ({ c with log := c.log ++ [.read buf.length] }, got ++ buf.drop got.length, got.length,
    c.readErr)

/-- Call `conn.Close()`: a connection that is already closed answers with the `net` package's
"use of closed network connection". -/
def Conn.Close (c : Conn) : Conn × Option GoError :=
  ({ c with closed := true, log := c.log ++ [.close] },
    if c.closed then some (.net "use of closed network connection") else c.closeErr)

/-! ## `driver.go` -/

/-- The struct `ScaleData`. -/
structure ScaleData where
  Weight : Int
  Division : Nat
  Stable : Bool
  Net : Bool
  Zero : Bool
  Tare : Int
deriving DecidableEq, Repr

/-- The struct `TCPScaleDriver`; `conn = none` is the nil interface value. -/
structure TCPScaleDriver where
  conn : Option Conn
  address : String
deriving DecidableEq, Repr

/-- The constructor `NewTCPScaleDriver`. -/
def NewTCPScaleDriver (address : String) : TCPScaleDriver :=
  { conn := none, address := address }

/-- The method `OpenConnection`; `dial` is the result of
`net.DialTimeout("tcp", d.address, 5*time.Second)`. -/
def TCPScaleDriver.OpenConnection (d : TCPScaleDriver) (dial : Except GoError Conn) :
    TCPScaleDriver × Option GoError :=
  match dial with
  | .error err => (d, some (.errorString ("ошибка подключения к весам: " ++ err.Error)))
  | .ok conn => ({ d with conn := some conn }, none)

/-- The method `CloseConnection`. -/
def TCPScaleDriver.CloseConnection (d : TCPScaleDriver) : TCPScaleDriver × Option GoError :=
  match d.conn with
  | some c =>
    let (c1, err) := c.Close
    ({ d with conn := some c1 }, err)
  | none => (d, none)

/-- Body of the inner loop of `calculateCRC` (one of the 8 rounds), on a `uint16`. -/
def crcShift (crc : Nat) : Nat :=
  if crc &&& 0x8000 ≠ 0 then ((crc <<< 1) % 65536) ^^^ 0x1021 else (crc <<< 1) % 65536

/-- The inner loop `for i := 0; i < 8; i++` of `calculateCRC`, with the number of rounds left. -/
def crcRounds : Nat → Nat → Nat
  | 0, crc => crc
  | i + 1, crc => crcRounds i (crcShift crc)

/-- The function `calculateCRC`. -/
def calculateCRC (data : List Nat) : Nat :=
  data.foldl (fun crc b => crcRounds 8 (crc ^^^ ((b <<< 8) % 65536))) 0xFFFF

/-- The method `sendCommand`. -/
def TCPScaleDriver.sendCommand (d : TCPScaleDriver) (cmd : Nat) :
    Except Panic (TCPScaleDriver × Option GoError) :=
  let msg := [0xF8, 0x55, 0xCE, 0x01, 0x00, cmd]
  let crc := calculateCRC (msg.drop 5)
  let msg := msg ++ [crc % 256, (crc >>> 8) % 256]
  match d.conn with
  | none => .error .nilDereference
  | some c =>
    let (c1, err) := c.Write msg
    .ok ({ d with conn := some c1 }, err)

/-- The method `readResponse`; a nil slice is the empty list. -/
def TCPScaleDriver.readResponse (d : TCPScaleDriver) :
    Except Panic (TCPScaleDriver × List Nat × Option GoError) :=
  match d.conn with
  | none => .error .nilDereference
  | some c =>
    let c1 := c.SetReadDeadline 5
    let resp := List.replicate 1024 0
    let (c2, resp, n, err) := c1.Read resp
    let d2 := { d with conn := some c2 }
    match err with
    | some e => .ok (d2, [], some (.errorString ("ошибка чтения ответа: " ++ e.Error)))
    | none =>
      match slice resp 0 n with
      | .error p => .error p
      | .ok r => .ok (d2, r, none)

/-- The response parsing of `ReadWeight` (the part of its body after the two transport calls):
the pair `(*ScaleData, error)` it returns for the bytes `resp` that `readResponse` delivered. -/
def decodeResponse (resp : List Nat) : Except Panic (Option ScaleData × Option GoError) := do
  if resp.length < 13 then
    return (none, some (.errorString "некорректная длина ответа"))
  let weight ← slice resp 1 5 >>= LittleEndianUint32
  let division ← index resp 5
  let stable ← index resp 6
  let net ← index resp 7
  let zeroFlag ← index resp 8
  let data : ScaleData :=
    { Weight := toInt32 weight, Division := division, Stable := stable == 1, Net := net == 1,
      Zero := zeroFlag == 1, Tare := 0 }
  if resp.length ≥ 17 then
    let tare ← slice resp 9 13 >>= LittleEndianUint32
    return (some { data with Tare := toInt32 tare }, none)
  return (some data, none)

/-- The method `ReadWeight`: the driver after the call and the pair `(*ScaleData, error)`. -/
def TCPScaleDriver.ReadWeight (d : TCPScaleDriver) :
    Except Panic (TCPScaleDriver × Option ScaleData × Option GoError) := do
  let (d, err) ← d.sendCommand 0x23
  if let some e := err then
    return (d, none, some e)
  let (d, resp, err) ← d.readResponse
  if let some e := err then
    return (d, none, some e)
  let (data, err) ← decodeResponse resp
  return (d, data, err)

/-- The pair `(*ScaleData, error)` of a call that returned; `none` for a call that panicked. -/
def returned (r : Except Panic (TCPScaleDriver × Option ScaleData × Option GoError)) :
    Option (Option ScaleData × Option GoError) :=
  match r with
  | .ok (_, data, err) => some (data, err)
  | .error _ => none

/-- The connection log after a call that returned; `none` when the call panicked or the driver
holds no connection. -/
def logAfter (r : Except Panic (TCPScaleDriver × Option ScaleData × Option GoError)) :
    Option (List ConnEvent) :=
  match r with
  | .ok (d, _, _) => d.conn.map Conn.log
  | .error _ => none

/-- A connection on which nothing has happened yet, whose write and read succeed and whose
peer answers with `data`. -/
def answering (data : List Nat) : Conn :=
  { writeErr := none, readData := data, readErr := none, closeErr := none, closed := false,
    log := [] }

/-! ## Reference definitions, from the specification -/

/-- The message bits of one byte, most significant first. -/
def byteBitsMSB (b : Nat) : List Bool :=
  [b.testBit 7, b.testBit 6, b.testBit 5, b.testBit 4,
   b.testBit 3, b.testBit 2, b.testBit 1, b.testBit 0]

/-- One step of the bit-serial CRC-16/CCITT: shift the 16-bit register left by one, dropping
its top bit, and XOR in the polynomial 0x1021 exactly when the dropped bit differs from the
message bit. -/
def refBitStep (reg : Nat) (bit : Bool) : Nat :=
  let top := reg.testBit 15
  let shifted := (reg <<< 1) % 65536
  if top ≠ bit then shifted ^^^ 0x1021 else shifted

/-- Reference CRC-16/CCITT (polynomial 0x1021, initial register 0xFFFF, most significant bit
first, no reflection, no final XOR), bit-serial over the message bits. -/
def crc16CCITTRef (data : List Nat) : Nat :=
  (data.flatMap byteBitsMSB).foldl refBitStep 0xFFFF

/-- Little-endian two's-complement encoding of a signed 32-bit integer in 4 bytes. -/
def encodeLE32 (w : Int) : List Nat :=
  let u := (w % 4294967296).toNat
  [u % 256, (u / 256) % 256, (u / 65536) % 256, (u / 16777216) % 256]

/-! ## CRC: the code against the bit-serial reference -/

set_option maxRecDepth 100000

theorem and_0x8000_ne_zero (x : Nat) : (x &&& 0x8000 ≠ 0) ↔ x.testBit 15 = true := by
  have h := Nat.and_two_pow x 15
  norm_num at h
  rw [h]
  cases x.testBit 15 <;> simp

theorem shiftLeft_one_xor (x y : Nat) :
    ((x ^^^ y) <<< 1) % 65536 = ((x <<< 1) % 65536) ^^^ ((y <<< 1) % 65536) := by
  apply Nat.eq_of_testBit_eq
  intro i
  have e : (65536 : Nat) = 2 ^ 16 := by norm_num
  simp only [e, Nat.testBit_mod_two_pow, Nat.testBit_xor, Nat.testBit_shiftLeft]
  cases decide (i < 16) <;> cases decide (i ≥ 1) <;> simp

theorem crcShift_lt (x : Nat) : crcShift x < 65536 := by
  unfold crcShift
  have h1 : (x <<< 1) % 65536 < 2 ^ 16 := Nat.mod_lt _ (by norm_num)
  split
  · exact Nat.xor_lt_two_pow h1 (by norm_num)
  · exact h1

theorem refBitStep_lt (x : Nat) (b : Bool) : refBitStep x b < 65536 := by
  unfold refBitStep
  have h1 : (x <<< 1) % 65536 < 2 ^ 16 := Nat.mod_lt _ (by norm_num)
  simp only
  split
  · exact Nat.xor_lt_two_pow h1 (by norm_num)
  · exact h1

/-- One round of the code on `crc ^^^ y` is one reference step on `crc` whose message bit is
the top bit of `y`, with the rest of `y` moved up by one place. -/
theorem crcShift_xor (crc y : Nat) :
    crcShift (crc ^^^ y) = refBitStep crc (y.testBit 15) ^^^ ((y <<< 1) % 65536) := by
  unfold crcShift refBitStep
  simp only [and_0x8000_ne_zero, Nat.testBit_xor, shiftLeft_one_xor]
  cases h1 : crc.testBit 15 <;> cases h2 : y.testBit 15 <;> simp <;> ac_rfl

theorem shiftLeft_mod_shiftLeft (y k : Nat) :
    ((y <<< 1) % 65536) <<< k % 65536 = y <<< (k + 1) % 65536 := by
  simp only [Nat.shiftLeft_eq, pow_succ, pow_one]
  have h : (y * 2 % 65536) * 2 ^ k ≡ (y * 2) * 2 ^ k [MOD 65536] :=
    (Nat.mod_modEq _ _).mul_right _
  have h2 : y * (2 ^ k * 2) = (y * 2) * 2 ^ k := by ring
  rw [h2]
  exact h

theorem testBit_shiftLeft_one (y j : Nat) (hj : j < 15) :
    ((y <<< 1) % 65536).testBit (15 - j) = y.testBit (15 - (j + 1)) := by
  have e : (65536 : Nat) = 2 ^ 16 := by norm_num
  have h1 : 15 - j < 16 := by omega
  have h2 : 15 - j ≥ 1 := by omega
  have h3 : 15 - j - 1 = 15 - (j + 1) := by omega
  rw [e, Nat.testBit_mod_two_pow, Nat.testBit_shiftLeft, h3]
  simp [h1, h2]

/-- After `k` rounds the top `k` bits of `y` have been consumed as message bits. -/
theorem crcRounds_xor (k : Nat) : ∀ crc y : Nat, y < 65536 → k ≤ 16 →
    crcRounds k (crc ^^^ y) =
      ((List.range k).map (fun i => y.testBit (15 - i))).foldl refBitStep crc
        ^^^ ((y <<< k) % 65536) := by
  induction k with
  | zero => intro crc y hy _; simp [crcRounds, Nat.mod_eq_of_lt hy]
  | succ k ih =>
    intro crc y hy hk
    have hy1 : (y <<< 1) % 65536 < 65536 := Nat.mod_lt _ (by norm_num)
    rw [crcRounds, crcShift_xor crc y, ih _ _ hy1 (by omega), List.range_succ_eq_map]
    simp only [List.map_cons, List.foldl_cons, List.map_map, Nat.sub_zero,
      shiftLeft_mod_shiftLeft]
    congr 2
    apply List.map_congr_left
    intro i hi
    have hi2 : i < 15 := by have := List.mem_range.mp hi; omega
    simp only [Function.comp, Nat.succ_eq_add_one]
    exact testBit_shiftLeft_one y i hi2

theorem byteStep_eq (crc b : Nat) :
    crcRounds 8 (crc ^^^ ((b <<< 8) % 65536)) = (byteBitsMSB b).foldl refBitStep crc := by
  have hy : (b <<< 8) % 65536 < 65536 := Nat.mod_lt _ (by norm_num)
  have h0 : ((b <<< 8) % 65536) <<< 8 % 65536 = 0 := by
    simp only [Nat.shiftLeft_eq]
    norm_num
    omega
  have ht : ∀ i, i < 8 → ((b <<< 8) % 65536).testBit (15 - i) = b.testBit (7 - i) := by
    intro i hi
    have e : (65536 : Nat) = 2 ^ 16 := by norm_num
    have h1 : 15 - i < 16 := by omega
    have h2 : 15 - i ≥ 8 := by omega
    have h3 : 15 - i - 8 = 7 - i := by omega
    rw [e, Nat.testBit_mod_two_pow, Nat.testBit_shiftLeft, h3]
    simp [h1, h2]
  rw [crcRounds_xor 8 crc _ hy (by norm_num), h0, Nat.xor_zero]
  have hr : List.range 8 = [0, 1, 2, 3, 4, 5, 6, 7] := by decide
  rw [hr]
  simp only [List.map_cons, List.map_nil, byteBitsMSB]
  rw [ht 0 (by norm_num), ht 1 (by norm_num), ht 2 (by norm_num), ht 3 (by norm_num),
    ht 4 (by norm_num), ht 5 (by norm_num), ht 6 (by norm_num), ht 7 (by norm_num)]

theorem foldl_bytes_eq (data : List Nat) : ∀ crc,
    data.foldl (fun crc b => crcRounds 8 (crc ^^^ ((b <<< 8) % 65536))) crc
      = (data.flatMap byteBitsMSB).foldl refBitStep crc := by
  induction data with
  | nil => intro crc; rfl
  | cons b bs ih =>
    intro crc
    rw [List.foldl_cons, byteStep_eq crc b, ih, List.flatMap_cons, List.foldl_append]

theorem foldl_refBitStep_lt (bits : List Bool) : ∀ crc, crc < 65536 →
    bits.foldl refBitStep crc < 65536 := by
  induction bits with
  | nil => intro crc h; exact h
  | cons b bs ih => intro crc _; exact ih _ (refBitStep_lt crc b)

theorem calculateCRC_lt (data : List Nat) : calculateCRC data < 65536 := by
  unfold calculateCRC
  rw [foldl_bytes_eq]
  exact foldl_refBitStep_lt _ _ (by norm_num)

/-- C1: for every byte sequence `calculateCRC` equals the bit-serial CRC-16/CCITT reference
(polynomial 0x1021, initial register 0xFFFF, most significant bit first, no reflection, no
final XOR); on the empty sequence it is 0xFFFF and on the nine ASCII bytes of "123456789" it
is 0x29B1. -/
theorem calculateCRC_eq_reference :
    (∀ data : List Nat, calculateCRC data = crc16CCITTRef data) ∧
    calculateCRC [] = 0xFFFF ∧
    "123456789".toList.map Char.toNat = [0x31, 0x32, 0x33, 0x34, 0x35, 0x36, 0x37, 0x38, 0x39] ∧
    calculateCRC [0x31, 0x32, 0x33, 0x34, 0x35, 0x36, 0x37, 0x38, 0x39] = 0x29B1 :=
  ⟨fun data => foldl_bytes_eq data _, by decide, by decide, by decide⟩

/-! ## The command frame -/

theorem shiftRight_8_byte (crc : Nat) (h : crc < 65536) : (crc >>> 8) % 256 = crc / 256 := by
  rw [Nat.shiftRight_eq_div_pow]
  omega

/-- C2: for every command byte `c`, `sendCommand c` hands exactly one 8-byte frame to the
connection's `Write`: `F8 55 CE 01 00`, then `c`, then the low and the high 8 bits of
`calculateCRC [c]`, the checksum of the command byte alone; the frame is made of bytes and
the two checksum bytes recompose the 16-bit checksum. -/
theorem sendCommand_frame (c : Nat) (hc : c < 256) (conn : Conn) (a : String) :
    TCPScaleDriver.sendCommand ⟨some conn, a⟩ c =
        .ok (⟨some { conn with log := conn.log ++
            [.write [0xF8, 0x55, 0xCE, 0x01, 0x00, c,
              calculateCRC [c] % 256, calculateCRC [c] / 256]] }, a⟩, conn.writeErr) ∧
      (∀ b ∈ [0xF8, 0x55, 0xCE, 0x01, 0x00, c,
          calculateCRC [c] % 256, calculateCRC [c] / 256], b < 256) ∧
      calculateCRC [c] % 256 + 256 * (calculateCRC [c] / 256) = calculateCRC [c] ∧
      calculateCRC [c] < 65536 := by
  have hlt := calculateCRC_lt [c]
  refine ⟨?_, ?_, by omega, hlt⟩
  · simp only [TCPScaleDriver.sendCommand, Conn.Write, List.drop_succ_cons, List.drop_zero,
      shiftRight_8_byte _ hlt, List.cons_append, List.nil_append]
  · intro b hb
    simp only [List.mem_cons, List.mem_singleton, List.not_mem_nil, or_false] at hb
    omega

/-- Witness for C2: command byte 0x23 on a fresh connection. -/
theorem sendCommand_frame_witness :
    (0x23 : Nat) < 256 ∧
    TCPScaleDriver.sendCommand ⟨some (answering []), "scale:5001"⟩ 0x23 =
      .ok (⟨some { answering [] with log :=
        [.write [0xF8, 0x55, 0xCE, 0x01, 0x00, 0x23, 0xF1, 0xF5]] }, "scale:5001"⟩, none) :=
  ⟨by decide, (sendCommand_frame 0x23 (by decide) (answering []) "scale:5001").1⟩

/-! ## The transport calls of `ReadWeight` -/

theorem slice_front (got tail : List Nat) : slice (got ++ tail) 0 got.length = .ok got := by
  unfold slice
  rw [if_pos ⟨Nat.zero_le _, by simp⟩]
  simp

theorem decodeResponse_short (resp : List Nat) (h : resp.length < 13) :
    decodeResponse resp = .ok (none, some (.errorString "некорректная длина ответа")) := by
  simp [decodeResponse, h, pure, Except.pure]

theorem decodeResponse_cons (b0 b1 b2 b3 b4 b5 b6 b7 b8 b9 b10 b11 b12 : Nat)
    (rest : List Nat) :
    decodeResponse (b0 :: b1 :: b2 :: b3 :: b4 :: b5 :: b6 :: b7 :: b8 :: b9 :: b10 :: b11
        :: b12 :: rest) =
      .ok (some
        { Weight := toInt32 (b1 ||| ((b2 <<< 8) % 4294967296) ||| ((b3 <<< 16) % 4294967296)
            ||| ((b4 <<< 24) % 4294967296)),
          Division := b5, Stable := b6 == 1, Net := b7 == 1, Zero := b8 == 1,
          Tare := if 4 ≤ rest.length then
              toInt32 (b9 ||| ((b10 <<< 8) % 4294967296) ||| ((b11 <<< 16) % 4294967296)
                ||| ((b12 <<< 24) % 4294967296))
            else 0 }, none) := by
  have h13 : ¬ (rest.length + 13 < 13) := by omega
  simp only [decodeResponse, slice, index, bind, Except.bind, pure, Except.pure,
    List.length_cons, Nat.reduceAdd, h13, if_false]
  have hs1 : (1 ≤ 5 ∧ 5 ≤ rest.length + 1 + 1 + 1 + 1 + 1 + 1 + 1 + 1 + 1 + 1 + 1 + 1 + 1) := by
    omega
  have hs2 : (9 ≤ 13 ∧ 13 ≤ rest.length + 1 + 1 + 1 + 1 + 1 + 1 + 1 + 1 + 1 + 1 + 1 + 1 + 1) := by
    omega
  have hs3 : (rest.length + 1 + 1 + 1 + 1 + 1 + 1 + 1 + 1 + 1 + 1 + 1 + 1 + 1 ≥ 17)
      ↔ 4 ≤ rest.length := by omega
  simp only [hs1, hs2, hs3, and_self, if_true, List.take_succ_cons, List.take_zero,
    List.drop_succ_cons, List.drop_zero, List.get?_cons_succ, List.get?_cons_zero,
    LittleEndianUint32]
  split <;> rfl

theorem exists_cons13 (l : List Nat) (h : 13 ≤ l.length) :
    ∃ b0 b1 b2 b3 b4 b5 b6 b7 b8 b9 b10 b11 b12 rest,
      l = b0 :: b1 :: b2 :: b3 :: b4 :: b5 :: b6 :: b7 :: b8 :: b9 :: b10 :: b11 :: b12
        :: rest := by
  match l, h with
  | b0 :: b1 :: b2 :: b3 :: b4 :: b5 :: b6 :: b7 :: b8 :: b9 :: b10 :: b11 :: b12 :: rest, _ =>
    exact ⟨b0, b1, b2, b3, b4, b5, b6, b7, b8, b9, b10, b11, b12, rest, rfl⟩

/-- The parsing never panics: every index it evaluates is in range. -/
theorem decodeResponse_ok (resp : List Nat) : ∃ r, decodeResponse resp = .ok r := by
  by_cases h : resp.length < 13
  · exact ⟨_, decodeResponse_short resp h⟩
  · obtain ⟨b0, b1, b2, b3, b4, b5, b6, b7, b8, b9, b10, b11, b12, rest, rfl⟩ :=
      exists_cons13 resp (by omega)
    exact ⟨_, decodeResponse_cons _ _ _ _ _ _ _ _ _ _ _ _ _ _⟩

/-- A failed write ends `ReadWeight` after the write, with the transport's error. -/
theorem ReadWeight_write_failed (c : Conn) (a : String) (e : GoError)
    (hw : c.writeErr = some e) :
    TCPScaleDriver.ReadWeight ⟨some c, a⟩ =
      .ok (⟨some { c with log := c.log ++
        [.write [0xF8, 0x55, 0xCE, 0x01, 0x00, 0x23, calculateCRC [0x23] % 256,
          (calculateCRC [0x23] >>> 8) % 256]] }, a⟩, none, some e) := by
  simp [TCPScaleDriver.ReadWeight, TCPScaleDriver.sendCommand, Conn.Write, hw, bind,
    Except.bind, pure, Except.pure]

theorem ReadWeight_read_failed (c : Conn) (a : String) (e : GoError)
    (hw : c.writeErr = none) (hr : c.readErr = some e) :
    TCPScaleDriver.ReadWeight ⟨some c, a⟩ =
      .ok (⟨some { c with log := c.log ++
        [.write [0xF8, 0x55, 0xCE, 0x01, 0x00, 0x23, calculateCRC [0x23] % 256,
          (calculateCRC [0x23] >>> 8) % 256], .setReadDeadline 5, .read 1024] }, a⟩, none,
        some (.errorString ("ошибка чтения ответа: " ++ e.Error))) := by
  simp [TCPScaleDriver.ReadWeight, TCPScaleDriver.sendCommand, TCPScaleDriver.readResponse,
    Conn.Write, Conn.Read, Conn.SetReadDeadline, hw, hr, bind, Except.bind, pure, Except.pure]

theorem ReadWeight_io_ok (c : Conn) (a : String) (hw : c.writeErr = none)
    (hr : c.readErr = none) :
    TCPScaleDriver.ReadWeight ⟨some c, a⟩ =
      (decodeResponse (c.readData.take 1024)).map
        (fun r => (⟨some { c with log := c.log ++
          [.write [0xF8, 0x55, 0xCE, 0x01, 0x00, 0x23, calculateCRC [0x23] % 256,
            (calculateCRC [0x23] >>> 8) % 256], .setReadDeadline 5, .read 1024] }, a⟩,
          r.1, r.2)) := by
  simp only [TCPScaleDriver.ReadWeight, TCPScaleDriver.sendCommand, TCPScaleDriver.readResponse,
    Conn.Write, Conn.Read, Conn.SetReadDeadline, hw, hr, bind, Except.bind, pure, Except.pure,
    List.length_replicate, slice_front]
  cases decodeResponse (List.take 1024 c.readData) <;> simp [Except.map]

theorem returned_ReadWeight (d : TCPScaleDriver) (c : Conn) (hc : d.conn = some c)
    (hw : c.writeErr = none) (hr : c.readErr = none) :
    returned d.ReadWeight = (decodeResponse (c.readData.take 1024)).toOption := by
  obtain ⟨conn, a⟩ := d
  simp only at hc
  subst hc
  rw [ReadWeight_io_ok c a hw hr]
  cases decodeResponse (List.take 1024 c.readData) <;> simp [Except.map, returned, Except.toOption]

/-- C3: the get-weight frame is fixed. `calculateCRC [0x23]` is 0xF5F1, which is also the value
of the bit-serial reference; `sendCommand 0x23` writes exactly `F8 55 CE 01 00 23 F1 F5`; and
on every connection, whatever the transport then does, the first call `ReadWeight` makes is
the write of that frame. -/
theorem get_weight_frame :
    calculateCRC [0x23] = 0xF5F1 ∧ crc16CCITTRef [0x23] = 0xF5F1 ∧
    (∀ (conn : Conn) (a : String),
      TCPScaleDriver.sendCommand ⟨some conn, a⟩ 0x23 =
        .ok (⟨some { conn with log := conn.log ++
          [.write [0xF8, 0x55, 0xCE, 0x01, 0x00, 0x23, 0xF1, 0xF5]] }, a⟩, conn.writeErr)) ∧
    (∀ (conn : Conn) (a : String), ∃ later,
      logAfter (TCPScaleDriver.ReadWeight ⟨some conn, a⟩) =
        some (conn.log ++ .write [0xF8, 0x55, 0xCE, 0x01, 0x00, 0x23, 0xF1, 0xF5] :: later)) := by
  have hcrc : calculateCRC [0x23] = 0xF5F1 := by decide
  have hlo : calculateCRC [0x23] % 256 = 0xF1 := by rw [hcrc]
  have hhi : (calculateCRC [0x23] >>> 8) % 256 = 0xF5 := by rw [hcrc]; rfl
  refine ⟨hcrc, by decide, ?_, ?_⟩
  · intro conn a
    simp only [TCPScaleDriver.sendCommand, Conn.Write, List.drop_succ_cons, List.drop_zero,
      hlo, hhi, List.cons_append, List.nil_append]
  · intro conn a
    cases hw : conn.writeErr with
    | some e =>
      refine ⟨[], ?_⟩
      rw [ReadWeight_write_failed conn a e hw, hlo, hhi]
      rfl
    | none =>
      cases hr : conn.readErr with
      | some e =>
        refine ⟨[.setReadDeadline 5, .read 1024], ?_⟩
        rw [ReadWeight_read_failed conn a e hw hr, hlo, hhi]
        rfl
      | none =>
        refine ⟨[.setReadDeadline 5, .read 1024], ?_⟩
        obtain ⟨r, hr2⟩ := decodeResponse_ok (conn.readData.take 1024)
        rw [ReadWeight_io_ok conn a hw hr, hr2, hlo, hhi]
        rfl

/-! ## Response parsing -/

theorem or_bytes (b0 b1 b2 b3 : Nat) (h0 : b0 < 256) (h1 : b1 < 256) (h2 : b2 < 256)
    (h3 : b3 < 256) :
    (b0 ||| ((b1 <<< 8) % 4294967296) ||| ((b2 <<< 16) % 4294967296)
      ||| ((b3 <<< 24) % 4294967296)) = b0 + 256 * b1 + 65536 * b2 + 16777216 * b3 := by
  have e1 : (b1 <<< 8) % 4294967296 = 2 ^ 8 * b1 := by
    rw [Nat.shiftLeft_eq]; omega
  have e2 : (b2 <<< 16) % 4294967296 = 2 ^ 16 * b2 := by
    rw [Nat.shiftLeft_eq]; omega
  have e3 : (b3 <<< 24) % 4294967296 = 2 ^ 24 * b3 := by
    rw [Nat.shiftLeft_eq]; omega
  rw [e1, e2, e3]
  have s1 : b0 ||| 2 ^ 8 * b1 = 2 ^ 8 * b1 + b0 := by
    rw [Nat.lor_comm]
    exact (Nat.mul_add_lt_is_or (by omega) b1).symm
  have s2 : 2 ^ 8 * b1 + b0 ||| 2 ^ 16 * b2 = 2 ^ 16 * b2 + (2 ^ 8 * b1 + b0) := by
    rw [Nat.lor_comm]
    exact (Nat.mul_add_lt_is_or (by omega) b2).symm
  have s3 : 2 ^ 16 * b2 + (2 ^ 8 * b1 + b0) ||| 2 ^ 24 * b3
      = 2 ^ 24 * b3 + (2 ^ 16 * b2 + (2 ^ 8 * b1 + b0)) := by
    rw [Nat.lor_comm]
    exact (Nat.mul_add_lt_is_or (by omega) b3).symm
  rw [s1, s2, s3]
  omega

/-- Decoding the little-endian encoding of an `int32` gives it back. -/
theorem toInt32_encodeLE32 (w : Int) (hlo : -2147483648 ≤ w) (hhi : w ≤ 2147483647)
    (b1 b2 b3 b4 : Nat) (h : [b1, b2, b3, b4] = encodeLE32 w) :
    toInt32 (b1 ||| ((b2 <<< 8) % 4294967296) ||| ((b3 <<< 16) % 4294967296)
      ||| ((b4 <<< 24) % 4294967296)) = w := by
  simp only [encodeLE32, List.cons.injEq, and_true] at h
  obtain ⟨h1, h2, h3, h4⟩ := h
  have hu : (((w % 4294967296).toNat : Nat) : Int) = w % 4294967296 :=
    Int.toNat_of_nonneg (by omega)
  generalize (w % 4294967296).toNat = u at h1 h2 h3 h4 hu
  have hlt : u < 4294967296 := by omega
  rw [or_bytes b1 b2 b3 b4 (by omega) (by omega) (by omega) (by omega)]
  have hsum : b1 + 256 * b2 + 65536 * b3 + 16777216 * b4 = u := by omega
  rw [hsum]
  unfold toInt32
  rw [Nat.mod_eq_of_lt hlt]
  split <;> omega

/-- C4: when the write and the read both succeeded, `ReadWeight` fails exactly when the
received byte sequence has fewer than 13 bytes: a response of length 0..12 gives an error and
no reading, a response of length 13 or more gives a reading and no error, whatever its bytes
are (no upper bound on the length, no checksum validation). -/
theorem readWeight_fails_iff_short (d : TCPScaleDriver) (c : Conn) (hc : d.conn = some c)
    (hw : c.writeErr = none) (hr : c.readErr = none)
    (resp : List Nat) (hresp : c.readData.take 1024 = resp) :
    (resp.length < 13 → ∃ e, returned d.ReadWeight = some (none, some e)) ∧
    (13 ≤ resp.length → ∃ r, returned d.ReadWeight = some (some r, none)) := by
  rw [returned_ReadWeight d c hc hw hr, hresp]
  constructor
  · intro h
    exact ⟨_, by rw [decodeResponse_short resp h]; rfl⟩
  · intro h
    obtain ⟨b0, b1, b2, b3, b4, b5, b6, b7, b8, b9, b10, b11, b12, rest, rfl⟩ :=
      exists_cons13 resp h
    exact ⟨_, by rw [decodeResponse_cons]; rfl⟩

/-- Witness for C4: a 12-byte answer is refused, the same answer with one more byte is read. -/
theorem readWeight_fails_iff_short_witness :
    (∃ e, returned (TCPScaleDriver.ReadWeight
      ⟨some (answering [0xAA, 0x39, 0x30, 0, 0, 2, 1, 0, 1, 0, 0, 0]), "scale:5001"⟩)
        = some (none, some e)) ∧
    (∃ r, returned (TCPScaleDriver.ReadWeight
      ⟨some (answering [0xAA, 0x39, 0x30, 0, 0, 2, 1, 0, 1, 0, 0, 0, 0]), "scale:5001"⟩)
        = some (some r, none)) :=
  ⟨(readWeight_fails_iff_short _ (answering [0xAA, 0x39, 0x30, 0, 0, 2, 1, 0, 1, 0, 0, 0])
      rfl rfl rfl _ rfl).1 (by decide),
    (readWeight_fails_iff_short _ (answering [0xAA, 0x39, 0x30, 0, 0, 2, 1, 0, 1, 0, 0, 0, 0])
      rfl rfl rfl _ rfl).2 (by decide)⟩

/-- C5: weight round trip. For every signed 32-bit integer `w` and every response of at least
13 bytes whose bytes at offsets 1..4 are the little-endian two's-complement encoding of `w`,
`ReadWeight` returns a reading with `Weight = w`. -/
theorem readWeight_weight_roundtrip (d : TCPScaleDriver) (c : Conn) (hc : d.conn = some c)
    (hw : c.writeErr = none) (hr : c.readErr = none)
    (resp : List Nat) (hresp : c.readData.take 1024 = resp)
    (w : Int) (hlo : -2147483648 ≤ w) (hhi : w ≤ 2147483647)
    (hlen : 13 ≤ resp.length) (henc : (resp.drop 1).take 4 = encodeLE32 w) :
    ∃ r, returned d.ReadWeight = some (some r, none) ∧ r.Weight = w := by
  rw [returned_ReadWeight d c hc hw hr, hresp]
  obtain ⟨b0, b1, b2, b3, b4, b5, b6, b7, b8, b9, b10, b11, b12, rest, rfl⟩ :=
    exists_cons13 resp hlen
  rw [decodeResponse_cons]
  exact ⟨_, rfl, toInt32_encodeLE32 w hlo hhi b1 b2 b3 b4 henc⟩

/-- Witness for C5: the smallest `int32`, -2147483648, encoded as `00 00 00 80`. -/
theorem readWeight_weight_roundtrip_witness :
    (-2147483648 : Int) ≤ -2147483648 ∧ (-2147483648 : Int) ≤ 2147483647 ∧
    encodeLE32 (-2147483648) = [0x00, 0x00, 0x00, 0x80] ∧
    ∃ r, returned (TCPScaleDriver.ReadWeight
      ⟨some (answering [0xAA, 0x00, 0x00, 0x00, 0x80, 2, 1, 0, 1, 0, 0, 0, 0]), "scale:5001"⟩)
        = some (some r, none) ∧ r.Weight = -2147483648 :=
  ⟨by decide, by decide, by decide,
    readWeight_weight_roundtrip _
      (answering [0xAA, 0x00, 0x00, 0x00, 0x80, 2, 1, 0, 1, 0, 0, 0, 0]) rfl rfl rfl _ rfl
      (-2147483648) (by decide) (by decide) (by decide) (by decide)⟩

/-- C6: for every response of at least 13 bytes the flags of the reading are: `Stable` is true
exactly when the byte at offset 6 is 1, `Net` exactly when the byte at offset 7 is 1, `Zero`
exactly when the byte at offset 8 is 1; every other byte value gives false. -/
theorem readWeight_flags (d : TCPScaleDriver) (c : Conn) (hc : d.conn = some c)
    (hw : c.writeErr = none) (hr : c.readErr = none)
    (resp : List Nat) (hresp : c.readData.take 1024 = resp) (hlen : 13 ≤ resp.length) :
    ∃ r, returned d.ReadWeight = some (some r, none) ∧
      (r.Stable = true ↔ resp[6]? = some 1) ∧
      (r.Net = true ↔ resp[7]? = some 1) ∧
      (r.Zero = true ↔ resp[8]? = some 1) := by
  rw [returned_ReadWeight d c hc hw hr, hresp]
  obtain ⟨b0, b1, b2, b3, b4, b5, b6, b7, b8, b9, b10, b11, b12, rest, rfl⟩ :=
    exists_cons13 resp hlen
  rw [decodeResponse_cons]
  exact ⟨_, rfl, by simp, by simp, by simp⟩

/-- Witness for C6: flag bytes 1, 2 and 0xFF decode to true, false and false. -/
theorem readWeight_flags_witness :
    ∃ r, returned (TCPScaleDriver.ReadWeight
      ⟨some (answering [0xAA, 0x39, 0x30, 0, 0, 2, 1, 2, 0xFF, 0, 0, 0, 0]), "scale:5001"⟩)
        = some (some r, none) ∧
      (r.Stable = true ↔
        [0xAA, 0x39, 0x30, 0, 0, 2, 1, 2, 0xFF, 0, 0, 0, 0][6]? = some 1) ∧
      (r.Net = true ↔
        [0xAA, 0x39, 0x30, 0, 0, 2, 1, 2, 0xFF, 0, 0, 0, 0][7]? = some 1) ∧
      (r.Zero = true ↔
        [0xAA, 0x39, 0x30, 0, 0, 2, 1, 2, 0xFF, 0, 0, 0, 0][8]? = some 1) :=
  readWeight_flags _ (answering [0xAA, 0x39, 0x30, 0, 0, 2, 1, 2, 0xFF, 0, 0, 0, 0])
    rfl rfl rfl _ rfl (by decide)

/-- C7: tare round trip on the extended payload. For every signed 32-bit integer `t` and every
response of at least 17 bytes whose bytes at offsets 9..12 are the little-endian
two's-complement encoding of `t`, `ReadWeight` returns a reading with `Tare = t`. -/
theorem readWeight_tare_roundtrip (d : TCPScaleDriver) (c : Conn) (hc : d.conn = some c)
    (hw : c.writeErr = none) (hr : c.readErr = none)
    (resp : List Nat) (hresp : c.readData.take 1024 = resp)
    (t : Int) (hlo : -2147483648 ≤ t) (hhi : t ≤ 2147483647)
    (hlen : 17 ≤ resp.length) (henc : (resp.drop 9).take 4 = encodeLE32 t) :
    ∃ r, returned d.ReadWeight = some (some r, none) ∧ r.Tare = t := by
  rw [returned_ReadWeight d c hc hw hr, hresp]
  obtain ⟨b0, b1, b2, b3, b4, b5, b6, b7, b8, b9, b10, b11, b12, rest, rfl⟩ :=
    exists_cons13 resp (by omega)
  have h4 : 4 ≤ rest.length := by simp only [List.length_cons] at hlen; omega
  rw [decodeResponse_cons, if_pos h4]
  exact ⟨_, rfl, toInt32_encodeLE32 t hlo hhi b9 b10 b11 b12 henc⟩

/-- Witness for C7: the bytes `0C FE FF FF` at offsets 9..12 of a 17-byte response encode -500
and decode to `Tare = -500`. -/
theorem readWeight_tare_roundtrip_witness :
    encodeLE32 (-500) = [0x0C, 0xFE, 0xFF, 0xFF] ∧
    ∃ r, returned (TCPScaleDriver.ReadWeight
      ⟨some (answering [0xAA, 0x39, 0x30, 0, 0, 2, 1, 0, 1, 0x0C, 0xFE, 0xFF, 0xFF, 0, 0, 0, 0]),
        "scale:5001"⟩) = some (some r, none) ∧ r.Tare = -500 :=
  ⟨by decide,
    readWeight_tare_roundtrip _
      (answering [0xAA, 0x39, 0x30, 0, 0, 2, 1, 0, 1, 0x0C, 0xFE, 0xFF, 0xFF, 0, 0, 0, 0])
      rfl rfl rfl _ rfl (-500) (by decide) (by decide) (by decide) (by decide)⟩

/-- C8: for every response of length 13, 14, 15 or 16 `ReadWeight` returns a reading and no
error, and the reading has `Tare = 0` whatever the bytes at offsets 9..12 are. -/
theorem readWeight_tare_absent (d : TCPScaleDriver) (c : Conn) (hc : d.conn = some c)
    (hw : c.writeErr = none) (hr : c.readErr = none)
    (resp : List Nat) (hresp : c.readData.take 1024 = resp)
    (hmin : 13 ≤ resp.length) (hmax : resp.length ≤ 16) :
    ∃ r, returned d.ReadWeight = some (some r, none) ∧ r.Tare = 0 := by
  rw [returned_ReadWeight d c hc hw hr, hresp]
  obtain ⟨b0, b1, b2, b3, b4, b5, b6, b7, b8, b9, b10, b11, b12, rest, rfl⟩ :=
    exists_cons13 resp hmin
  have h4 : ¬ 4 ≤ rest.length := by simp only [List.length_cons] at hmax; omega
  rw [decodeResponse_cons, if_neg h4]
  exact ⟨_, rfl, rfl⟩

/-- Witness for C8: a 16-byte response with `0C FE FF FF` at offsets 9..12 has `Tare = 0`. -/
theorem readWeight_tare_absent_witness :
    ∃ r, returned (TCPScaleDriver.ReadWeight
      ⟨some (answering [0xAA, 0x39, 0x30, 0, 0, 2, 1, 0, 1, 0x0C, 0xFE, 0xFF, 0xFF, 7, 7, 7]),
        "scale:5001"⟩) = some (some r, none) ∧ r.Tare = 0 :=
  readWeight_tare_absent _
    (answering [0xAA, 0x39, 0x30, 0, 0, 2, 1, 0, 1, 0x0C, 0xFE, 0xFF, 0xFF, 7, 7, 7])
    rfl rfl rfl _ rfl (by decide) (by decide)

/-- C9: parse-minimal. For every response of at least 13 bytes the reading's `Division` is the
byte at offset 5, unchanged; and when the response is the 13 bytes
`AA 39 30 00 00 02 01 00 01` followed by four arbitrary bytes, the reading is exactly
`Weight = 12345, Division = 2, Stable = true, Net = false, Zero = true, Tare = 0`. -/
theorem readWeight_parse_minimal (d : TCPScaleDriver) (c : Conn) (hc : d.conn = some c)
    (hw : c.writeErr = none) (hr : c.readErr = none)
    (resp : List Nat) (hresp : c.readData.take 1024 = resp) (hlen : 13 ≤ resp.length) :
    ∃ r, returned d.ReadWeight = some (some r, none) ∧
      resp[5]? = some r.Division ∧
      ∀ x9 x10 x11 x12 : Nat,
        resp = [0xAA, 0x39, 0x30, 0x00, 0x00, 0x02, 0x01, 0x00, 0x01, x9, x10, x11, x12] →
        r = { Weight := 12345, Division := 2, Stable := true, Net := false, Zero := true,
              Tare := 0 } := by
  rw [returned_ReadWeight d c hc hw hr, hresp]
  obtain ⟨b0, b1, b2, b3, b4, b5, b6, b7, b8, b9, b10, b11, b12, rest, rfl⟩ :=
    exists_cons13 resp hlen
  rw [decodeResponse_cons]
  refine ⟨_, rfl, by simp, ?_⟩
  intro x9 x10 x11 x12 h
  simp only [List.cons.injEq] at h
  obtain ⟨-, rfl, rfl, rfl, rfl, rfl, rfl, rfl, rfl, -, -, -, -, rfl⟩ := h
  have hw : toInt32 (0x39 ||| ((0x30 <<< 8) % 4294967296) ||| ((0x00 <<< 16) % 4294967296)
      ||| ((0x00 <<< 24) % 4294967296)) = 12345 := by decide
  simp only [hw]
  rfl

/-- Witness for C9: the minimal response with `DE AD BE EF` as its last four bytes. -/
theorem readWeight_parse_minimal_witness :
    returned (TCPScaleDriver.ReadWeight
      ⟨some (answering [0xAA, 0x39, 0x30, 0x00, 0x00, 0x02, 0x01, 0x00, 0x01,
        0xDE, 0xAD, 0xBE, 0xEF]), "scale:5001"⟩) =
      some (some { Weight := 12345, Division := 2, Stable := true, Net := false, Zero := true,
                   Tare := 0 }, none) := by
  obtain ⟨r, h1, -, h3⟩ := readWeight_parse_minimal
    ⟨some (answering [0xAA, 0x39, 0x30, 0x00, 0x00, 0x02, 0x01, 0x00, 0x01,
      0xDE, 0xAD, 0xBE, 0xEF]), "scale:5001"⟩
    (answering [0xAA, 0x39, 0x30, 0x00, 0x00, 0x02, 0x01, 0x00, 0x01, 0xDE, 0xAD, 0xBE, 0xEF])
    rfl rfl rfl _ rfl (by decide)
  rw [h1, h3 0xDE 0xAD 0xBE 0xEF rfl]

/-- C10: the reading depends only on the bytes at offsets 1..12 and on whether the response
has at least 17 bytes. Two responses of at least 13 bytes that agree at every offset from 1
through 12 and are both shorter than 17 bytes or both at least 17 bytes long give the same
reading; byte 0 and the bytes from offset 13 on influence no field. -/
theorem readWeight_depends_on (d1 d2 : TCPScaleDriver) (c1 c2 : Conn)
    (hc1 : d1.conn = some c1) (hw1 : c1.writeErr = none) (hr1 : c1.readErr = none)
    (hc2 : d2.conn = some c2) (hw2 : c2.writeErr = none) (hr2 : c2.readErr = none)
    (resp1 resp2 : List Nat)
    (hresp1 : c1.readData.take 1024 = resp1) (hresp2 : c2.readData.take 1024 = resp2)
    (hlen1 : 13 ≤ resp1.length) (hlen2 : 13 ≤ resp2.length)
    (hagree : (resp1.drop 1).take 12 = (resp2.drop 1).take 12)
    (hext : 17 ≤ resp1.length ↔ 17 ≤ resp2.length) :
    ∃ r, returned d1.ReadWeight = some (some r, none) ∧
      returned d2.ReadWeight = some (some r, none) := by
  rw [returned_ReadWeight d1 c1 hc1 hw1 hr1, hresp1, returned_ReadWeight d2 c2 hc2 hw2 hr2,
    hresp2]
  obtain ⟨a0, a1, a2, a3, a4, a5, a6, a7, a8, a9, a10, a11, a12, rest1, rfl⟩ :=
    exists_cons13 resp1 hlen1
  obtain ⟨b0, b1, b2, b3, b4, b5, b6, b7, b8, b9, b10, b11, b12, rest2, rfl⟩ :=
    exists_cons13 resp2 hlen2
  simp only [List.drop_succ_cons, List.drop_zero, List.take_succ_cons, List.take_zero,
    List.cons.injEq, and_true] at hagree
  obtain ⟨rfl, rfl, rfl, rfl, rfl, rfl, rfl, rfl, rfl, rfl, rfl, rfl⟩ := hagree
  have h4 : 4 ≤ rest1.length ↔ 4 ≤ rest2.length := by
    simp only [List.length_cons] at hext; omega
  rw [decodeResponse_cons, decodeResponse_cons]
  refine ⟨_, rfl, ?_⟩
  simp only [h4]
  rfl

/-- Witness for C10: two 17-byte responses that differ at offset 0 and at offsets 13..16. -/
theorem readWeight_depends_on_witness :
    ∃ r, returned (TCPScaleDriver.ReadWeight
        ⟨some (answering [0xAA, 0x39, 0x30, 0, 0, 2, 1, 0, 1, 0x0C, 0xFE, 0xFF, 0xFF,
          0, 0, 0, 0]), "scale:5001"⟩) = some (some r, none) ∧
      returned (TCPScaleDriver.ReadWeight
        ⟨some (answering [0x55, 0x39, 0x30, 0, 0, 2, 1, 0, 1, 0x0C, 0xFE, 0xFF, 0xFF,
          9, 8, 7, 6]), "scale:5002"⟩) = some (some r, none) :=
  readWeight_depends_on _ _
    (answering [0xAA, 0x39, 0x30, 0, 0, 2, 1, 0, 1, 0x0C, 0xFE, 0xFF, 0xFF, 0, 0, 0, 0])
    (answering [0x55, 0x39, 0x30, 0, 0, 2, 1, 0, 1, 0x0C, 0xFE, 0xFF, 0xFF, 9, 8, 7, 6])
    rfl rfl rfl rfl rfl rfl _ _ rfl rfl (by decide) (by decide) (by decide) (by decide)

/-! ## The session -/

/-- C11: on a session that holds no connection (as `NewTCPScaleDriver` builds it for any
address), `CloseConnection` returns nil and leaves the session as it was: same address, still
no connection, hence no call made on any connection. -/
theorem closeConnection_never_opened (address : String) :
    (NewTCPScaleDriver address).conn = none ∧
    (NewTCPScaleDriver address).CloseConnection = (NewTCPScaleDriver address, none) ∧
    (NewTCPScaleDriver address).CloseConnection.1.address = address :=
  ⟨rfl, rfl, rfl⟩

/-- C12, as stated, fails: after `OpenConnection` and one `CloseConnection` the session still
holds the connection, and a second `CloseConnection` calls `Close` on it again (two `close`
calls in the log) and returns the error of the closed connection. -/
theorem closeConnection_twice_counterexample :
    ¬ ((((NewTCPScaleDriver "scale:5001").OpenConnection (.ok (answering []))).1.CloseConnection.1.conn
          = none) ∧
        (((NewTCPScaleDriver "scale:5001").OpenConnection
          (.ok (answering []))).1.CloseConnection.1.CloseConnection.2 = none)) ∧
    (((NewTCPScaleDriver "scale:5001").OpenConnection
      (.ok (answering []))).1.CloseConnection.1.CloseConnection.1.conn.map Conn.log
        = some [.close, .close]) ∧
    (((NewTCPScaleDriver "scale:5001").OpenConnection
      (.ok (answering []))).1.CloseConnection.1.CloseConnection.2
        = some (.net "use of closed network connection")) := by
  refine ⟨?_, rfl, rfl⟩
  intro h
  exact absurd h.1 (by decide)

/-- C12, amended: `CloseConnection` never clears the connection. After a successful
`OpenConnection` the first `CloseConnection` closes the connection and returns what `Close`
returned, the session keeps holding the closed connection, and a second `CloseConnection`
calls `Close` on it again and returns the closed connection's error. -/
theorem closeConnection_after_close (d : TCPScaleDriver) (conn : Conn)
    (hfresh : conn.closed = false) :
    d.OpenConnection (.ok conn) = ({ d with conn := some conn }, none) ∧
    (d.OpenConnection (.ok conn)).1.CloseConnection =
      ({ d with conn := some { conn with closed := true, log := conn.log ++ [.close] } },
        conn.closeErr) ∧
    (d.OpenConnection (.ok conn)).1.CloseConnection.1.CloseConnection =
      ({ d with conn := some { conn with closed := true, log := conn.log ++ [.close, .close] } },
        some (.net "use of closed network connection")) := by
  refine ⟨rfl, ?_, ?_⟩
  · simp [TCPScaleDriver.OpenConnection, TCPScaleDriver.CloseConnection, Conn.Close, hfresh]
  · simp [TCPScaleDriver.OpenConnection, TCPScaleDriver.CloseConnection, Conn.Close, hfresh]

/-- Witness for C12 amended: a fresh connection opened on a new session and closed twice. -/
theorem closeConnection_after_close_witness :
    (answering []).closed = false ∧
    ((NewTCPScaleDriver "scale:5001").OpenConnection
      (.ok (answering []))).1.CloseConnection.1.CloseConnection =
        ({ conn := some { answering [] with closed := true, log := [.close, .close] },
           address := "scale:5001" },
          some (.net "use of closed network connection")) :=
  ⟨rfl, (closeConnection_after_close (NewTCPScaleDriver "scale:5001") (answering []) rfl).2.2⟩

/-- C13: no partial success. On a session that holds a connection, whatever the transport does
(the write fails, the read fails, the read delivers any bytes), `ReadWeight` returns either a
reading with a nil error or no reading with a non-nil error, never both and never neither. -/
theorem readWeight_no_partial_success (d : TCPScaleDriver) (c : Conn) (hc : d.conn = some c) :
    (∃ r, returned d.ReadWeight = some (some r, none)) ∨
    (∃ e, returned d.ReadWeight = some (none, some e)) := by
  obtain ⟨conn, a⟩ := d
  simp only at hc
  subst hc
  cases hw : c.writeErr with
  | some e =>
    right
    exact ⟨e, by rw [ReadWeight_write_failed c a e hw]; rfl⟩
  | none =>
    cases hr : c.readErr with
    | some e =>
      right
      exact ⟨_, by rw [ReadWeight_read_failed c a e hw hr]; rfl⟩
    | none =>
      rw [returned_ReadWeight ⟨some c, a⟩ c rfl hw hr]
      by_cases h : (c.readData.take 1024).length < 13
      · right
        exact ⟨_, by rw [decodeResponse_short _ h]; rfl⟩
      · left
        obtain ⟨b0, b1, b2, b3, b4, b5, b6, b7, b8, b9, b10, b11, b12, rest, hl⟩ :=
          exists_cons13 (c.readData.take 1024) (by omega)
        exact ⟨_, by rw [hl, decodeResponse_cons]; rfl⟩

/-- Witness for C13: a connection whose write fails. -/
theorem readWeight_no_partial_success_witness :
    (∃ r, returned (TCPScaleDriver.ReadWeight
      ⟨some { answering [] with writeErr := some (.net "write tcp: broken pipe") },
        "scale:5001"⟩) = some (some r, none)) ∨
    (∃ e, returned (TCPScaleDriver.ReadWeight
      ⟨some { answering [] with writeErr := some (.net "write tcp: broken pipe") },
        "scale:5001"⟩) = some (none, some e)) :=
  readWeight_no_partial_success _
    { answering [] with writeErr := some (.net "write tcp: broken pipe") } rfl

/-- C14: each `ReadWeight` call on a session that holds a connection makes exactly one write,
of the 8-byte get-weight frame, as its first call; when that write fails nothing else is
called, and when it succeeds the only further calls are the setting of the read deadline and
one read into a 1024-byte buffer. When the read succeeds too, what is parsed is exactly the
first `n` bytes of the buffer, `n` being the count that read returned. -/
theorem readWeight_one_write_one_read (d : TCPScaleDriver) (c : Conn) (hc : d.conn = some c) :
    (c.writeErr ≠ none →
      logAfter d.ReadWeight =
        some (c.log ++ [.write [0xF8, 0x55, 0xCE, 0x01, 0x00, 0x23, 0xF1, 0xF5]])) ∧
    (c.writeErr = none →
      logAfter d.ReadWeight =
        some (c.log ++ [.write [0xF8, 0x55, 0xCE, 0x01, 0x00, 0x23, 0xF1, 0xF5],
          .setReadDeadline 5, .read 1024])) ∧
    (c.writeErr = none → c.readErr = none →
      returned d.ReadWeight =
        (decodeResponse
          ((((c.Write [0xF8, 0x55, 0xCE, 0x01, 0x00, 0x23, 0xF1, 0xF5]).1.SetReadDeadline 5).Read
              (List.replicate 1024 0)).2.1.take
            (((c.Write [0xF8, 0x55, 0xCE, 0x01, 0x00, 0x23, 0xF1, 0xF5]).1.SetReadDeadline 5).Read
              (List.replicate 1024 0)).2.2.1)).toOption) := by
  obtain ⟨conn, a⟩ := d
  simp only at hc
  subst hc
  have hcrc : calculateCRC [0x23] = 0xF5F1 := by decide
  have hlo : calculateCRC [0x23] % 256 = 0xF1 := by rw [hcrc]
  have hhi : (calculateCRC [0x23] >>> 8) % 256 = 0xF5 := by rw [hcrc]; rfl
  refine ⟨?_, ?_, ?_⟩
  · intro hw
    obtain ⟨e, he⟩ := Option.ne_none_iff_exists'.mp hw
    rw [ReadWeight_write_failed c a e he, hlo, hhi]
    rfl
  · intro hw
    cases hr : c.readErr with
    | some e =>
      rw [ReadWeight_read_failed c a e hw hr, hlo, hhi]
      rfl
    | none =>
      obtain ⟨r, hr2⟩ := decodeResponse_ok (c.readData.take 1024)
      rw [ReadWeight_io_ok c a hw hr, hr2, hlo, hhi]
      rfl
  · intro hw hr
    rw [returned_ReadWeight ⟨some c, a⟩ c rfl hw hr]
    simp only [Conn.Read, Conn.Write, Conn.SetReadDeadline, List.length_replicate,
      List.take_left']

/-- Witness for C14: a connection with earlier traffic in its log, answering 13 bytes. -/
theorem readWeight_one_write_one_read_witness :
    logAfter (TCPScaleDriver.ReadWeight
      ⟨some { answering [0xAA, 0x39, 0x30, 0, 0, 2, 1, 0, 1, 0, 0, 0, 0] with
        log := [.read 1024] }, "scale:5001"⟩) =
      some ([.read 1024] ++ [.write [0xF8, 0x55, 0xCE, 0x01, 0x00, 0x23, 0xF1, 0xF5],
        .setReadDeadline 5, .read 1024]) :=
  (readWeight_one_write_one_read _
    { answering [0xAA, 0x39, 0x30, 0, 0, 2, 1, 0, 1, 0, 0, 0, 0] with log := [.read 1024] }
    rfl).2.1 rfl

/-- The message of a failed read never is the message of the short-response error. -/
theorem read_message_ne (x : String) :
    "ошибка чтения ответа: " ++ x ≠ "некорректная длина ответа" := by
  intro h
  have h2 := congrArg String.data h
  rw [String.data_append] at h2
  have h3 := congrArg List.head? h2
  have e1 : ("ошибка чтения ответа: ".data ++ x.data).head? = some 'о' := rfl
  have e2 : "некорректная длина ответа".data.head? = some 'н' := rfl
  rw [e1, e2] at h3
  exact absurd h3 (by decide)

/-- C15, as stated, fails: `ReadWeight` returns a write error as the connection gave it, so
a write that fails with a plain string error carrying the short-response message makes
`ReadWeight` return the very error it returns for a too-short (here empty) response. -/
theorem readWeight_write_error_counterexample :
    returned (TCPScaleDriver.ReadWeight
      ⟨some { answering [] with
          writeErr := some (.errorString "некорректная длина ответа") }, "scale:5001"⟩) =
        some (none, some (.errorString "некорректная длина ответа")) ∧
    returned (TCPScaleDriver.ReadWeight ⟨some (answering []), "scale:5001"⟩) =
        some (none, some (.errorString "некорректная длина ответа")) := by
  constructor
  · rw [ReadWeight_write_failed _ _ _ rfl]
    rfl
  · rw [returned_ReadWeight _ (answering []) rfl rfl rfl, decodeResponse_short _ (by decide)]
    rfl

/-- C15, amended: when the write or the read fails, `ReadWeight` returns no reading and an
error. A failed read gives a string error whose message starts with the read-failure text,
which differs from the short-response error for every underlying read error. A failed write
gives the underlying write error itself, unchanged: it differs from the short-response error
exactly when the underlying error does, in particular whenever that is an error of the `net`
package's kind. -/
theorem readWeight_transport_error (d : TCPScaleDriver) (c : Conn) (hc : d.conn = some c)
    (hfail : c.writeErr ≠ none ∨ c.readErr ≠ none) :
    ∃ e, returned d.ReadWeight = some (none, some e) ∧
      (∀ we, c.writeErr = some we → e = we) ∧
      (∀ msg, c.writeErr = some (.net msg) → e ≠ .errorString "некорректная длина ответа") ∧
      (∀ re, c.writeErr = none → c.readErr = some re →
        e = .errorString ("ошибка чтения ответа: " ++ re.Error) ∧
        e ≠ .errorString "некорректная длина ответа") := by
  obtain ⟨conn, a⟩ := d
  simp only at hc
  subst hc
  cases hw : c.writeErr with
  | some e =>
    refine ⟨e, by rw [ReadWeight_write_failed c a _ hw]; rfl, ?_, ?_, ?_⟩
    · intro we hwe
      exact (Option.some.inj hwe)
    · intro msg hmsg
      rw [Option.some.inj hmsg]
      simp
    · intro re h
      exact absurd h (by simp)
  | none =>
    cases hr : c.readErr with
    | none => simp [hw, hr] at hfail
    | some e =>
      refine ⟨_, by rw [ReadWeight_read_failed c a e hw hr]; rfl, ?_, ?_, ?_⟩
      · intro we h
        exact absurd h (by simp)
      · intro msg h
        exact absurd h (by simp)
      · intro re _ hre
        rw [Option.some.inj hre]
        exact ⟨rfl, fun h => read_message_ne re.Error (GoError.errorString.inj h)⟩

/-- Witness for C15 amended: a read that fails with a string error carrying the
short-response message still gives a different error. -/
theorem readWeight_transport_error_witness :
    ∃ e, returned (TCPScaleDriver.ReadWeight
        ⟨some { answering [] with
            readErr := some (.errorString "некорректная длина ответа") }, "scale:5001"⟩) =
          some (none, some e) ∧
      e = .errorString ("ошибка чтения ответа: " ++ "некорректная длина ответа") ∧
      e ≠ .errorString "некорректная длина ответа" := by
  obtain ⟨e, h1, -, -, h4⟩ := readWeight_transport_error
    ⟨some { answering [] with readErr := some (.errorString "некорректная длина ответа") },
      "scale:5001"⟩
    { answering [] with readErr := some (.errorString "некорректная длина ответа") } rfl
    (Or.inr (by decide))
  exact ⟨e, h1, h4 _ rfl rfl⟩

/-- C16: tare absence is indistinguishable from tare zero. A 13-byte response (with non-zero
bytes at offsets 9..12, which are not interpreted) and a 17-byte response with zeros at
offsets 9..12, agreeing at offsets 1..8, give equal readings; and a reading is nothing but its
six fields, none of which says whether `Tare` was populated. -/
theorem tare_absent_indistinguishable :
    (∃ resp13 resp17 : List Nat, resp13.length = 13 ∧ resp17.length = 17 ∧
      (resp13.drop 1).take 8 = (resp17.drop 1).take 8 ∧
      (resp13.drop 9).take 4 ≠ [0, 0, 0, 0] ∧ (resp17.drop 9).take 4 = [0, 0, 0, 0] ∧
      ∃ r, returned (TCPScaleDriver.ReadWeight ⟨some (answering resp13), "scale:5001"⟩)
            = some (some r, none) ∧
          returned (TCPScaleDriver.ReadWeight ⟨some (answering resp17), "scale:5001"⟩)
            = some (some r, none)) ∧
    (∀ r1 r2 : ScaleData, r1.Weight = r2.Weight → r1.Division = r2.Division →
      r1.Stable = r2.Stable → r1.Net = r2.Net → r1.Zero = r2.Zero → r1.Tare = r2.Tare →
      r1 = r2) := by
  refine ⟨⟨[0xAA, 0x39, 0x30, 0, 0, 2, 1, 0, 1, 0xDE, 0xAD, 0xBE, 0xEF],
    [0xAA, 0x39, 0x30, 0, 0, 2, 1, 0, 1, 0, 0, 0, 0, 0, 0, 0, 0], rfl, rfl, rfl, by decide, rfl,
    { Weight := 12345, Division := 2, Stable := true, Net := false, Zero := true, Tare := 0 },
    ?_, ?_⟩, ?_⟩
  · rw [returned_ReadWeight _ (answering _) rfl rfl rfl]
    decide
  · rw [returned_ReadWeight _ (answering _) rfl rfl rfl]
    decide
  · intro r1 r2 h1 h2 h3 h4 h5 h6
    cases r1
    cases r2
    simp only at h1 h2 h3 h4 h5 h6
    subst h1 h2 h3 h4 h5 h6
    rfl

/-- C17 fails on the code: on a session that holds no connection `ReadWeight` does not return
at all. `sendCommand` calls `Write` on the nil connection, which is a nil-dereference panic, so
there is neither a reading nor an error. -/
theorem readWeight_without_connection_panics (address : String) :
    (NewTCPScaleDriver address).ReadWeight = .error .nilDereference ∧
    returned (NewTCPScaleDriver address).ReadWeight = none ∧
    (NewTCPScaleDriver address).sendCommand 0x23 = .error .nilDereference :=
  ⟨rfl, rfl, rfl⟩

/-- C18: the parsing makes no out-of-range index or slice access, whatever the response and
whatever its length: it always returns. The whole of `ReadWeight`, the slicing `resp[:n]` of
the read buffer included, returns on every session that holds a connection; and a response
shorter than 13 bytes is refused before any of its bytes is read. -/
theorem decode_in_range :
    (∀ resp : List Nat, ∃ r, decodeResponse resp = .ok r) ∧
    (∀ (c : Conn) (a : String), ∃ out, TCPScaleDriver.ReadWeight ⟨some c, a⟩ = .ok out) ∧
    (∀ resp : List Nat, resp.length < 13 →
      decodeResponse resp = .ok (none, some (.errorString "некорректная длина ответа"))) := by
  refine ⟨decodeResponse_ok, ?_, decodeResponse_short⟩
  intro c a
  cases hw : c.writeErr with
  | some e => exact ⟨_, ReadWeight_write_failed c a e hw⟩
  | none =>
    cases hr : c.readErr with
    | some e => exact ⟨_, ReadWeight_read_failed c a e hw hr⟩
    | none =>
      obtain ⟨r, hr2⟩ := decodeResponse_ok (c.readData.take 1024)
      exact ⟨_, by rw [ReadWeight_io_ok c a hw hr, hr2]; rfl⟩

/-! ## Error detection -/

theorem testBit_15_iff (x : Nat) : x.testBit 15 = true ↔ x / 32768 % 2 = 1 := by
  rw [Nat.testBit_to_div_mod]
  simp

theorem shifted_testBit_zero (x : Nat) : ((x <<< 1) % 65536).testBit 0 = false := by
  have e : (65536 : Nat) = 2 ^ 16 := by norm_num
  rw [e, Nat.testBit_mod_two_pow, Nat.testBit_shiftLeft]
  simp

/-- One round is injective on 16-bit registers. -/
theorem crcShift_injective (a b : Nat) (ha : a < 65536) (hb : b < 65536)
    (h : crcShift a = crcShift b) : a = b := by
  unfold crcShift at h
  have hodd : ∀ x : Nat, (((x <<< 1) % 65536) ^^^ 0x1021).testBit 0 = true := by
    intro x
    rw [Nat.testBit_xor, shifted_testBit_zero]
    decide
  by_cases h1 : a &&& 0x8000 ≠ 0 <;> by_cases h2 : b &&& 0x8000 ≠ 0
  · rw [if_pos h1, if_pos h2, Nat.xor_left_inj] at h
    rw [and_0x8000_ne_zero, testBit_15_iff] at h1 h2
    simp only [Nat.shiftLeft_eq, pow_one] at h
    omega
  · rw [if_pos h1, if_neg h2] at h
    have := congrArg (fun v => Nat.testBit v 0) h
    simp only [hodd, shifted_testBit_zero] at this
    exact absurd this (by decide)
  · rw [if_neg h1, if_pos h2] at h
    have := congrArg (fun v => Nat.testBit v 0) h
    simp only [hodd, shifted_testBit_zero] at this
    exact absurd this (by decide)
  · rw [if_neg h1, if_neg h2] at h
    rw [and_0x8000_ne_zero, testBit_15_iff] at h1 h2
    simp only [Nat.shiftLeft_eq, pow_one] at h
    omega

theorem crcRounds_lt (k : Nat) : ∀ x, x < 65536 → crcRounds k x < 65536 := by
  induction k with
  | zero => intro x hx; exact hx
  | succ k ih => intro x _; exact ih _ (crcShift_lt x)

theorem crcRounds_injective (k : Nat) : ∀ a b, a < 65536 → b < 65536 →
    crcRounds k a = crcRounds k b → a = b := by
  induction k with
  | zero => intro a b _ _ h; exact h
  | succ k ih =>
    intro a b ha hb h
    exact crcShift_injective a b ha hb (ih _ _ (crcShift_lt a) (crcShift_lt b) h)

/-- The update of the register by one byte, as a function of the register, is injective. -/
theorem byteUpdate_injective (c s1 s2 : Nat) (h1 : s1 < 65536) (h2 : s2 < 65536)
    (h : crcRounds 8 (s1 ^^^ ((c <<< 8) % 65536)) = crcRounds 8 (s2 ^^^ ((c <<< 8) % 65536))) :
    s1 = s2 := by
  have hm : (c <<< 8) % 65536 < 2 ^ 16 := Nat.mod_lt _ (by norm_num)
  have e1 : s1 ^^^ ((c <<< 8) % 65536) < 65536 := Nat.xor_lt_two_pow (n := 16) h1 hm
  have e2 : s2 ^^^ ((c <<< 8) % 65536) < 65536 := Nat.xor_lt_two_pow (n := 16) h2 hm
  exact Nat.xor_left_inj.mp (crcRounds_injective 8 _ _ e1 e2 h)

theorem foldl_crc_lt (data : List Nat) : ∀ s, s < 65536 →
    data.foldl (fun crc b => crcRounds 8 (crc ^^^ ((b <<< 8) % 65536))) s < 65536 := by
  induction data with
  | nil => intro s hs; exact hs
  | cons b bs ih =>
    intro s hs
    have hm : (b <<< 8) % 65536 < 2 ^ 16 := Nat.mod_lt _ (by norm_num)
    exact ih _ (crcRounds_lt 8 _ (Nat.xor_lt_two_pow (n := 16) hs hm))

/-- Two different registers stay different over the same bytes. -/
theorem foldl_crc_injective (data : List Nat) : ∀ s1 s2, s1 < 65536 → s2 < 65536 →
    data.foldl (fun crc b => crcRounds 8 (crc ^^^ ((b <<< 8) % 65536))) s1 =
      data.foldl (fun crc b => crcRounds 8 (crc ^^^ ((b <<< 8) % 65536))) s2 → s1 = s2 := by
  induction data with
  | nil => intro s1 s2 _ _ h; exact h
  | cons b bs ih =>
    intro s1 s2 h1 h2 h
    have hm : (b <<< 8) % 65536 < 2 ^ 16 := Nat.mod_lt _ (by norm_num)
    have e1 := crcRounds_lt 8 _ (Nat.xor_lt_two_pow (n := 16) h1 hm)
    have e2 := crcRounds_lt 8 _ (Nat.xor_lt_two_pow (n := 16) h2 hm)
    exact byteUpdate_injective b s1 s2 h1 h2 (ih _ _ e1 e2 h)

/-- Two sequences that differ in one byte only have different checksums. -/
theorem calculateCRC_one_byte_changed (pre suf : List Nat) (b1 b2 : Nat) (h1 : b1 < 256)
    (h2 : b2 < 256) (h : calculateCRC (pre ++ b1 :: suf) = calculateCRC (pre ++ b2 :: suf)) :
    b1 = b2 := by
  unfold calculateCRC at h
  rw [List.foldl_append, List.foldl_append, List.foldl_cons, List.foldl_cons] at h
  have hs := foldl_crc_lt pre 0xFFFF (by norm_num)
  generalize pre.foldl (fun crc b => crcRounds 8 (crc ^^^ ((b <<< 8) % 65536))) 0xFFFF = s
    at h hs
  have hm1 : (b1 <<< 8) % 65536 < 2 ^ 16 := Nat.mod_lt _ (by norm_num)
  have hm2 : (b2 <<< 8) % 65536 < 2 ^ 16 := Nat.mod_lt _ (by norm_num)
  have e1 : s ^^^ ((b1 <<< 8) % 65536) < 65536 := Nat.xor_lt_two_pow (n := 16) hs hm1
  have e2 : s ^^^ ((b2 <<< 8) % 65536) < 65536 := Nat.xor_lt_two_pow (n := 16) hs hm2
  have h3 := foldl_crc_injective suf _ _ (crcRounds_lt 8 _ e1) (crcRounds_lt 8 _ e2) h
  have h4 := Nat.xor_right_inj.mp (crcRounds_injective 8 _ _ e1 e2 h3)
  simp only [Nat.shiftLeft_eq] at h4
  omega

/-- C19: single-bit error detection. Flipping one bit (bit `k` of the byte `b` at any
position) of a byte sequence changes the value of `calculateCRC`; and `calculateCRC` is
injective on single-byte inputs, so two different command bytes never share a checksum. -/
theorem calculateCRC_detects_single_bit (pre suf : List Nat) (b k : Nat) (hb : b < 256)
    (hk : k < 8) :
    (pre ++ (b ^^^ 2 ^ k) :: suf).length = (pre ++ b :: suf).length ∧
    b ^^^ 2 ^ k < 256 ∧ b ^^^ 2 ^ k ≠ b ∧
    calculateCRC (pre ++ b :: suf) ≠ calculateCRC (pre ++ (b ^^^ 2 ^ k) :: suf) ∧
    (∀ c1 c2 : Nat, c1 < 256 → c2 < 256 → calculateCRC [c1] = calculateCRC [c2] → c1 = c2) := by
  have hlt : b ^^^ 2 ^ k < 256 :=
    Nat.xor_lt_two_pow (n := 8) hb (Nat.pow_lt_pow_right (by norm_num) hk)
  have hne : b ^^^ 2 ^ k ≠ b := by
    intro h
    have h0 : b ^^^ 2 ^ k = b ^^^ 0 := by rw [h, Nat.xor_zero]
    have := Nat.xor_right_inj.mp h0
    exact absurd this (by positivity)
  refine ⟨by simp, hlt, hne, ?_, ?_⟩
  · intro h
    exact hne (calculateCRC_one_byte_changed pre suf b _ hb hlt h).symm
  · intro c1 c2 h1 h2 h
    exact calculateCRC_one_byte_changed [] [] c1 c2 h1 h2 h

/-- Witness for C19: bit 0 of the get-weight command byte flipped (0x23 against 0x22), the
first byte of a two-byte sequence. -/
theorem calculateCRC_detects_single_bit_witness :
    (0x23 : Nat) < 256 ∧ (0 : Nat) < 8 ∧
    calculateCRC ([] ++ 0x23 :: [0x00]) ≠ calculateCRC ([] ++ (0x23 ^^^ 2 ^ 0) :: [0x00]) :=
  ⟨by decide, by decide,
    (calculateCRC_detects_single_bit [] [0x00] 0x23 0 (by decide) (by decide)).2.2.2.1⟩

end ScaleDriver
